import Mathlib

/-!
Shallow embedding of the core logic of the repository (a YouTube search-pattern
randomizer site): the template filler and URL formatter from
src/lib/search-settings.ts, the constrained random samplers from
src/lib/randomness.ts, and the distribution PDF evaluator from
src/lib/distributionPDF.ts, together with theorems settling the specification
claims about them.

Modelling conventions:
* JavaScript strings are `String` / `List Char`; numbers are exact (`ℤ`, `ℚ`,
  `ℝ`) rather than IEEE floats.  `Math.floor` on a rational is `Rat.floor`,
  and `Math.round x` is `Rat.floor (x + 1/2)` (JavaScript rounds halves toward
  positive infinity).
* `Math.random()` draws are an oracle stream `u : ℕ → ℚ` of values in `[0,1)`,
  one entry per call.  The Box-Muller and Student-t samplers are transcendental
  functions of such draws; their normalized outputs are modelled as a second
  oracle stream `g : ℕ → ℚ` (each claim proved below holds for every possible
  sampler output, so this abstraction loses nothing for these claims).
* `Date` objects are calendar records (`JSDate`) on the search-settings side
  and rational timestamps on the randomness side, matching how each file
  consumes them.
* The PDF evaluator uses genuine real-valued transcendental functions
  (`Real.exp`, `Real.log`, `Real.sqrt`, real exponentiation), so that part of
  the embedding is noncomputable; everything else is executable.
-/

namespace TheMethod

/-! ## Generic JavaScript string helpers -/

/-- JavaScript `String.prototype.includes` on character lists. -/
def containsSub : List Char → List Char → Bool
  | [], pat => pat.isPrefixOf ([] : List Char)
  | c :: cs, pat => pat.isPrefixOf (c :: cs) || containsSub cs pat

/-- Fueled worker for `replaceAll`; the fuel is the length of the scanned list,
which bounds the number of steps. -/
def replaceAllAux (pat repl : List Char) : ℕ → List Char → List Char
  | _, [] => []
  | 0, l => l
  | fuel + 1, c :: cs =>
    if !pat.isEmpty && pat.isPrefixOf (c :: cs) then
      repl ++ replaceAllAux pat repl fuel (cs.drop (pat.length - 1))
    else
      c :: replaceAllAux pat repl fuel cs

/-- JavaScript `str.replace(/pat/g, repl)` for a literal token `pat`:
every non-overlapping occurrence is replaced, scanning left to right, and
replacement text is not rescanned. -/
def replaceAll (pat repl l : List Char) : List Char :=
  replaceAllAux pat repl l.length l

/-- JavaScript `str.replace(pat, repl)` with a plain string pattern:
only the first occurrence is replaced. -/
def replaceFirst (pat repl : List Char) : List Char → List Char
  | [] => if pat.isEmpty then repl else []
  | c :: cs =>
    if pat.isPrefixOf (c :: cs) then repl ++ (c :: cs).drop pat.length
    else c :: replaceFirst pat repl cs

/-- JavaScript `String.prototype.padStart(n, c)` on character lists. -/
def padStartList (l : List Char) (n : ℕ) (c : Char) : List Char :=
  List.replicate (n - l.length) c ++ l

/-- Decimal digit character for a value below ten. -/
def digitCh (d : ℕ) : Char := Char.ofNat (48 + d)

/-- Uppercase hexadecimal digit character for a value below sixteen. -/
def hexDigitCh (d : ℕ) : Char :=
  if d < 10 then Char.ofNat (48 + d) else Char.ofNat (55 + d)

/-- Fueled most-significant-first decimal digit expansion. -/
def natDigitsAux : ℕ → ℕ → List Char
  | 0, _ => []
  | fuel + 1, n =>
    if n < 10 then [digitCh n]
    else natDigitsAux fuel (n / 10) ++ [digitCh (n % 10)]

/-- Decimal digit string of a natural number (JavaScript
`Number.prototype.toString()` for a nonnegative integer). -/
def natToChars (n : ℕ) : List Char := natDigitsAux (n + 1) n

/-- JavaScript `Number.prototype.toString()` for an integer. -/
def intToChars (i : ℤ) : List Char :=
  if i < 0 then '-' :: natToChars i.natAbs else natToChars i.toNat

/-- Fueled most-significant-first uppercase hexadecimal expansion. -/
def hexDigitsAux : ℕ → ℕ → List Char
  | 0, _ => []
  | fuel + 1, n =>
    if n < 16 then [hexDigitCh n]
    else hexDigitsAux fuel (n / 16) ++ [hexDigitCh (n % 16)]

/-- JavaScript `n.toString(16).toUpperCase()` for a nonnegative integer. -/
def natToHexChars (n : ℕ) : List Char := hexDigitsAux (n + 1) n

/-- JavaScript `n.toString(16).toUpperCase()` for an integer. -/
def intToHexChars (i : ℤ) : List Char :=
  if i < 0 then '-' :: natToHexChars i.natAbs else natToHexChars i.toNat

/-- JavaScript `String.prototype.split(sep)` for a single-character separator:
`"a-b"` gives `["a","b"]`, `"-a"` gives `["","a"]`, `""` gives `[""]`. -/
def splitOnChar (sep : Char) : List Char → List (List Char)
  | [] => [[]]
  | c :: cs =>
    if c = sep then [] :: splitOnChar sep cs
    else
      match splitOnChar sep cs with
      | [] => [[c]]
      | p :: ps => (c :: p) :: ps

/-- Whitespace recognized by JavaScript `parseInt` before the number. -/
def isJsSpace (c : Char) : Bool :=
  c = ' ' || c = '\t' || c = '\n' || c = '\r'

/-- Value of a list of decimal digit characters. -/
def digitsVal (l : List Char) : ℕ :=
  l.foldl (fun a c => 10 * a + (c.toNat - 48)) 0

/-- Longest leading run of decimal digits, `none` when there is none. -/
def parseDigitsPre (l : List Char) : Option ℕ :=
  match l.takeWhile Char.isDigit with
  | [] => none
  | ds => some (digitsVal ds)

/-- JavaScript `parseInt(s, 10)`: skip leading whitespace, an optional sign,
then the longest decimal digit run; `NaN` (here `none`) when no digit follows. -/
def jsParseInt (l : List Char) : Option ℤ :=
  let l1 := l.dropWhile isJsSpace
  if l1.head? = some '-' then (parseDigitsPre l1.tail).map (fun n => -(n : ℤ))
  else if l1.head? = some '+' then (parseDigitsPre l1.tail).map (fun n => (n : ℤ))
  else (parseDigitsPre l1).map (fun n => (n : ℤ))

/-- JavaScript `String.fromCharCode(n)`: the code point is reduced modulo
2^16; Lean `Char` cannot hold lone surrogates, for which `Char.ofNat` falls
back to the null character (no claim below touches that corner). -/
def jsFromCharCode (n : ℤ) : Char := Char.ofNat (n % 65536).toNat

/-! ## Data model (src/lib/method-logic.ts types, spec section 3) -/

/-- A typed range constraint attached to a pattern. -/
structure Constraint where
  type : String
  value : String
deriving DecidableEq

/-- A search pattern (the fields the embedded core reads, plus the metadata
fields of the data model). -/
structure SearchPattern where
  name : String
  genre : String
  age : String
  specifiers : List String
  constraints : List Constraint
  isCustom : Bool
deriving DecidableEq

/-- The calendar view of a JavaScript `Date` used by search-settings.ts:
`month` is the 0-based `getMonth()` value. -/
structure JSDate where
  year : ℕ
  month : Fin 12
  day : ℕ
  hours : ℕ
  minutes : ℕ
  seconds : ℕ
deriving DecidableEq

/-! ## search-settings.ts -/

/-- Parsed bounds of a `"min-max"` constraint value. -/
structure RangeBounds where
  min : ℤ
  max : ℤ
deriving DecidableEq

/-- `parseRangeConstraint` (search-settings.ts): split on `'-'`, demand exactly
two parts, parse both with `parseInt`; `null` (`none`) if either is `NaN`.
There is no check that `min ≤ max`. -/
def parseRangeConstraint (value : List Char) : Option RangeBounds :=
  let parts := splitOnChar '-' value
  if parts.length ≠ 2 then none
  else
    match jsParseInt (parts.getD 0 []), jsParseInt (parts.getD 1 []) with
    | some mn, some mx => some ⟨mn, mx⟩
    | _, _ => none

/-- `getRandomInt(min, max)` (search-settings.ts):
`Math.floor(Math.random() * (max - min + 1)) + min`, with `u` the
`Math.random()` draw of this call. -/
def getRandomInt (u : ℚ) (lo hi : ℤ) : ℤ :=
  Rat.floor (u * ((hi : ℚ) - (lo : ℚ) + 1)) + lo

/-- Which rendering the X-run generator uses ('number' | 'letter' | 'hex'). -/
inductive FillKind
  | number
  | letter
  | hex
deriving DecidableEq

/-- One step of the constraint scan inside `fillSpecifierTemplate`: a parseable
constraint of a known type overwrites the accumulated `(min, max, kind)`
(last one wins); an unparseable or unknown-typed constraint leaves it alone. -/
def constraintFold (acc : ℤ × ℤ × FillKind) (c : Constraint) : ℤ × ℤ × FillKind :=
  if c.type = "range" then
    match parseRangeConstraint c.value.data with
    | some r => (r.min, r.max, FillKind.number)
    | none => acc
  else if c.type = "letter-range" then
    match parseRangeConstraint c.value.data with
    | some r => (r.min, r.max, FillKind.letter)
    | none => acc
  else if c.type = "hex-range" then
    match parseRangeConstraint c.value.data with
    | some r => (r.min, r.max, FillKind.hex)
    | none => acc
  else acc

/-- The `(min, max, kind)` triple governing an X-run of length `n` after
scanning all constraints; the default is the range `[0, 10^n - 1]` rendered as
a decimal number. -/
def applyConstraints (cs : List Constraint) (n : ℕ) : ℤ × ℤ × FillKind :=
  cs.foldl constraintFold (0, 10 ^ n - 1, FillKind.number)

/-- The replacement text for one X-run of length `n`: draw a constrained
integer, render it per the active kind, then left-pad with `'0'` to length `n`
(the source pads all kinds, letters and hex included). -/
def xReplacement (cs : List Constraint) (u : ℚ) (n : ℕ) : List Char :=
  let b := applyConstraints cs n
  let rnd := getRandomInt u b.1 b.2.1
  let repl :=
    match b.2.2 with
    | FillKind.letter => [jsFromCharCode rnd]
    | FillKind.hex => intToHexChars rnd
    | FillKind.number => intToChars rnd
  padStartList repl n '0'

/-- Fueled scan extracting the maximal runs of `'X'` (the `match(/X+/g)` list). -/
def xRunsAux : ℕ → List Char → List (List Char)
  | 0, _ => []
  | fuel + 1, l =>
    match l with
    | [] => []
    | c :: cs =>
      if c = 'X' then
        ('X' :: cs.takeWhile (fun x => x = 'X')) :: xRunsAux fuel (cs.dropWhile (fun x => x = 'X'))
      else xRunsAux fuel cs

/-- All maximal runs of `'X'` in order of appearance. -/
def xRuns (l : List Char) : List (List Char) := xRunsAux l.length l

/-- The X-run loop of `fillSpecifierTemplate`: for each matched run, in match
order, replace the FIRST occurrence of the run's text in the current result
with a freshly generated replacement (run `i` consumes random draw `g i`). -/
def processXRuns (cs : List Constraint) (g : ℕ → ℚ) (l : List Char) : List Char :=
  (xRuns l).enum.foldl
    (fun acc ig => replaceFirst ig.2 (xReplacement cs (g ig.1) ig.2.length) acc) l

def tokYYYY : List Char := ("YYYY").data
def tokMonth : List Char := ("Month").data
def tokMon : List Char := ("Mon").data
def tokMM : List Char := ("MM").data
def tokDD : List Char := ("DD").data
def tokHH : List Char := ("HH").data
def tokmm : List Char := ("mm").data
def tokSS : List Char := ("SS").data

def monthNamesList : List (List Char) :=
  [("January").data, ("February").data, ("March").data, ("April").data,
   ("May").data, ("June").data, ("July").data, ("August").data,
   ("September").data, ("October").data, ("November").data, ("December").data]

def shortMonthNamesList : List (List Char) :=
  [("Jan").data, ("Feb").data, ("Mar").data, ("Apr").data, ("May").data,
   ("Jun").data, ("Jul").data, ("Aug").data, ("Sep").data, ("Oct").data,
   ("Nov").data, ("Dec").data]

/-- One date/time token stage of `fillSpecifierTemplate`: if the token occurs
in the current result, globally replace it. -/
def stageReplace (tok repl l : List Char) : List Char :=
  if containsSub l tok then replaceAll tok repl l else l

/-- The eight date/time stages of `fillSpecifierTemplate`, applied in source
order: YYYY, Month, Mon, MM, DD, HH, mm, SS. -/
def fillDateStages (d : JSDate) (l : List Char) : List Char :=
  stageReplace tokSS (padStartList (natToChars d.seconds) 2 '0')
    (stageReplace tokmm (padStartList (natToChars d.minutes) 2 '0')
      (stageReplace tokHH (padStartList (natToChars d.hours) 2 '0')
        (stageReplace tokDD (padStartList (natToChars d.day) 2 '0')
          (stageReplace tokMM (padStartList (natToChars (d.month.val + 1)) 2 '0')
            (stageReplace tokMon (shortMonthNamesList.getD d.month.val [])
              (stageReplace tokMonth (monthNamesList.getD d.month.val [])
                (stageReplace tokYYYY (padStartList (natToChars d.year) 4 '0') l)))))))

/-- `fillSpecifierTemplate(specifier, pattern, formattedDate)`
(search-settings.ts): empty template gives the empty string; otherwise the
eight date/time token stages run in order, then every maximal `X` run is
replaced by a constrained random value.  `g` is the `Math.random()` oracle. -/
def fillSpecifierTemplate (specifier : String) (p : SearchPattern) (d : JSDate)
    (g : ℕ → ℚ) : String :=
  if specifier = "" then ""
  else
    String.mk
      (if (fillDateStages d specifier.data).any (fun c => c = 'X')
       then processXRuns p.constraints g (fillDateStages d specifier.data)
       else fillDateStages d specifier.data)

/-- `generateSearchTerm(name, specifier, pattern, formattedDate)`
(search-settings.ts): name alone when the specifier (or its filled value) is
empty, otherwise name followed directly by the filled specifier. -/
def generateSearchTerm (name specifier : String) (p : SearchPattern) (d : JSDate)
    (g : ℕ → ℚ) : String :=
  if specifier = "" then name
  else
    let specifierValue := fillSpecifierTemplate specifier p d g
    if specifierValue = "" then name else name ++ specifierValue

/-- JavaScript word character (`\w`): ASCII alphanumeric or underscore. -/
def isWordChar (c : Char) : Bool := c.isAlphanum || c = '_'

/-- A word boundary (`\b`) holds against a neighbor that is absent or not a
word character. -/
def boundaryOk : Option Char → Bool
  | none => true
  | some c => !(isWordChar c)

/-- Does the regular expression `\b(\d{4})\b` match at position `i`? -/
def matchFourAt (l : List Char) (i : ℕ) : Bool :=
  ((l.drop i).take 4).length == 4 && ((l.drop i).take 4).all Char.isDigit &&
    boundaryOk (if i = 0 then none else l.get? (i - 1)) && boundaryOk (l.get? (i + 4))

/-- First (leftmost) match of `\b(\d{4})\b`: the first standalone four-digit
run of the string, when there is one. -/
def firstFourDigitRun (l : List Char) : Option (List Char) :=
  ((List.range l.length).find? (fun i => matchFourAt l i)).map
    (fun i => (l.drop i).take 4)

/-- The padded `YYYY-MM-DD` rendering used by both `before:` branches of
`determineDateFilter` (month and day via `padStart(2, '0')`). -/
def paddedDateChars (d : JSDate) : List Char :=
  natToChars d.year ++ ['-'] ++ padStartList (natToChars (d.month.val + 1)) 2 '0'
    ++ ['-'] ++ padStartList (natToChars d.day) 2 '0'

/-- `determineDateFilter(specifier, pattern, formattedDate, searchTerm,
dateOverride)` (search-settings.ts).  Override forces a padded `before:`
filter; otherwise a `YYYY` token plus a standalone four-digit run in the
filled term yields an UNpadded `after:` filter built from that run; otherwise
the pattern's age decides: `"old"` gives a padded `before:` filter and
anything else gives no filter. -/
def determineDateFilter (specifier : String) (p : SearchPattern) (d : JSDate)
    (searchTerm : String) (dateOverride : Bool) : String :=
  if dateOverride then String.mk (("before:").data ++ paddedDateChars d)
  else
    match (if containsSub specifier.data tokYYYY then firstFourDigitRun searchTerm.data else none) with
    | some y =>
      String.mk (("after:").data ++ y ++ ['-'] ++ natToChars (d.month.val + 1)
        ++ ['-'] ++ natToChars d.day)
    | none =>
      if p.age = "old" then String.mk (("before:").data ++ paddedDateChars d)
      else if p.age = "new" then ""
      else ""

/-- UTF-8 bytes of a character (all characters appearing in the claims are
ASCII, where this is the single byte of the code point). -/
def utf8Bytes (c : Char) : List ℕ :=
  let n := c.toNat
  if n < 128 then [n]
  else if n < 2048 then [192 + n / 64, 128 + n % 64]
  else if n < 65536 then [224 + n / 4096, 128 + (n / 64) % 64, 128 + n % 64]
  else [240 + n / 262144, 128 + (n / 4096) % 64, 128 + (n / 64) % 64, 128 + n % 64]

/-- A percent-encoded byte, uppercase hexadecimal. -/
def percentByte (b : ℕ) : List Char := ['%', hexDigitCh (b / 16), hexDigitCh (b % 16)]

/-- Characters that `application/x-www-form-urlencoded` serialization (the
`URLSearchParams.toString` format) leaves as-is. -/
def formUrlSafeChar (c : Char) : Bool :=
  c.isAlphanum || c = '*' || c = '-' || c = '.' || c = '_'

/-- One character of `URLSearchParams` serialization: space becomes `'+'`,
safe characters stay, everything else is percent-encoded per UTF-8 byte. -/
def formUrlEncodeChar (c : Char) : List Char :=
  if c = ' ' then ['+']
  else if formUrlSafeChar c then [c]
  else ((utf8Bytes c).map percentByte).flatten

/-- `application/x-www-form-urlencoded` serialization of a value. -/
def formUrlEncode (l : List Char) : List Char :=
  (l.map formUrlEncodeChar).flatten

def urlHead : List Char := ("https://www.youtube.com/results?search_query=").data

def urlTail : List Char := ("&sp=CAISAhAB").data

/-- The quoted search term built in step 1.5 of `formatSearchTermToURL`. -/
def quotedSearchTerm (p : SearchPattern) (specifier : String) (d : JSDate)
    (g : ℕ → ℚ) : String :=
  String.mk ('"' :: (generateSearchTerm p.name specifier p d g).data ++ ['"'])

/-- The full query text of `formatSearchTermToURL`: the quoted term, plus a
space and the date filter when one was produced. -/
def fullSearchTerm (p : SearchPattern) (specifier : String) (d : JSDate)
    (dateOverride : Bool) (g : ℕ → ℚ) : String :=
  if determineDateFilter specifier p d (quotedSearchTerm p specifier d g) dateOverride = ""
  then quotedSearchTerm p specifier d g
  else
    quotedSearchTerm p specifier d g ++ " " ++
      determineDateFilter specifier p d (quotedSearchTerm p specifier d g) dateOverride

/-- `formatSearchTermToURL(pattern, specifier, formattedDate, dateOverride)`
(search-settings.ts): quote the generated term, append the date filter when
one was produced, and serialize as the `search_query` parameter followed by
the fixed `sp=CAISAhAB` upload-date-sort parameter. -/
def formatSearchTermToURL (p : SearchPattern) (specifier : String) (d : JSDate)
    (dateOverride : Bool) (g : ℕ → ℚ) : String :=
  String.mk (urlHead ++ formUrlEncode (fullSearchTerm p specifier d dateOverride g).data ++ urlTail)

/-- One-pass reading of the template filler, built to compare against
`fillSpecifierTemplate` for the spec's no-re-match guarantee (spec section
4.3: "no token's replacement text can be re-matched by a later-processed
token pattern").  The source has no such function; this definition follows
the spec's words: scan left to right, replace each token occurrence once
(checking tokens in the spec's order at each position) and never rescan
replacement text.  Fuel is the remaining length. -/
def onePassFillAux (p : SearchPattern) (d : JSDate) (g : ℕ → ℚ) :
    ℕ → ℕ → List Char → List Char
  | 0, _, l => l
  | fuel + 1, i, l =>
    if tokYYYY.isPrefixOf l then
      padStartList (natToChars d.year) 4 '0' ++ onePassFillAux p d g fuel i (l.drop 4)
    else if tokMonth.isPrefixOf l then
      (monthNamesList.getD d.month.val []) ++ onePassFillAux p d g fuel i (l.drop 5)
    else if tokMon.isPrefixOf l then
      (shortMonthNamesList.getD d.month.val []) ++ onePassFillAux p d g fuel i (l.drop 3)
    else if tokMM.isPrefixOf l then
      padStartList (natToChars (d.month.val + 1)) 2 '0' ++ onePassFillAux p d g fuel i (l.drop 2)
    else if tokDD.isPrefixOf l then
      padStartList (natToChars d.day) 2 '0' ++ onePassFillAux p d g fuel i (l.drop 2)
    else if tokHH.isPrefixOf l then
      padStartList (natToChars d.hours) 2 '0' ++ onePassFillAux p d g fuel i (l.drop 2)
    else if tokmm.isPrefixOf l then
      padStartList (natToChars d.minutes) 2 '0' ++ onePassFillAux p d g fuel i (l.drop 2)
    else if tokSS.isPrefixOf l then
      padStartList (natToChars d.seconds) 2 '0' ++ onePassFillAux p d g fuel i (l.drop 2)
    else
      match l with
      | [] => []
      | c :: cs =>
        if c = 'X' then
          xReplacement p.constraints (g i) ('X' :: cs.takeWhile (fun x => x = 'X')).length
            ++ onePassFillAux p d g fuel (i + 1) (cs.dropWhile (fun x => x = 'X'))
        else c :: onePassFillAux p d g fuel i cs

/-- One-pass template filling (the spec's no-re-match reading). -/
def onePassFill (specifier : String) (p : SearchPattern) (d : JSDate)
    (g : ℕ → ℚ) : String :=
  if specifier = "" then ""
  else String.mk (onePassFillAux p d g specifier.data.length 0 specifier.data)

/-! ## randomness.ts -/

/-- The four distribution names of the configuration enum. -/
inductive DistributionType
  | uniform
  | bell
  | zCurve
  | tCurve
deriving DecidableEq

/-- `DistributionConfig` (randomness.ts): center and spread are fractions of
the target range; degrees of freedom only matter for the t-curve. -/
structure DistributionConfig where
  type : DistributionType
  center : ℚ
  spread : ℚ
  degreesOfFreedom : Option ℕ
deriving DecidableEq

/-- JavaScript `Math.round` (half toward positive infinity). -/
def jsRound (q : ℚ) : ℤ := Rat.floor (q + 1 / 2)

/-- `uniformDistribution(min, max)` (randomness.ts), with `u` the
`Math.random()` draw of this call. -/
def uniformDistribution (u : ℚ) (lo hi : ℤ) : ℤ :=
  Rat.floor (u * ((hi : ℚ) - (lo : ℚ) + 1)) + lo

/-- `normalDistribution(mean, stdDev)` (randomness.ts): the source computes
`z0 = sqrt(-2 ln u1) * cos(2 pi u2)` by Box-Muller and returns
`z0 * stdDev + mean`.  `z0` is a transcendental function of the raw draws, so
the embedding takes `z0` itself as the oracle value of the call; the claims
proved below hold for every value of `z0`. -/
def normalDistribution (z0 : ℚ) (mean stdDev : ℚ) : ℚ := z0 * stdDev + mean

/-- `zCurveDistribution` (randomness.ts): delegates to `normalDistribution`. -/
def zCurveDistribution (z0 : ℚ) (mean stdDev : ℚ) : ℚ :=
  normalDistribution z0 mean stdDev

/-- `tDistribution(mean, scale, df)` (randomness.ts): the source draws
`t = z / sqrt(chi2 / df)` and returns `mean + t * scale`; `t` is the oracle
value of the call (the degrees of freedom only shape its distribution). -/
def tDistribution (t : ℚ) (mean scale : ℚ) : ℚ := mean + t * scale

/-- JavaScript `config.degreesOfFreedom || 5` (both `undefined` and `0` are
falsy and fall back to 5). -/
def dfOrFive : Option ℕ → ℕ
  | none => 5
  | some n => if n = 0 then 5 else n

/-- One attempt of the do-while loop in `generateConstrainedInteger`: draw
from the configured sampler and round.  The `uniform` case mirrors the dead
`default` switch branch (the uniform type returns before the loop). -/
def integerAttemptValue (u g : ℕ → ℚ) (c : DistributionConfig) (lo hi : ℤ)
    (centerValue stdDev : ℚ) (i : ℕ) : ℤ :=
  match c.type with
  | DistributionType.bell => jsRound (normalDistribution (g i) centerValue stdDev)
  | DistributionType.zCurve => jsRound (zCurveDistribution (g i) centerValue stdDev)
  | DistributionType.tCurve => jsRound (tDistribution (g i) centerValue stdDev)
  | DistributionType.uniform => uniformDistribution (u i) lo hi

/-- The do-while loop of `generateConstrainedInteger`: at least one attempt;
re-draw while the value is out of range and attempts remain.  `fuel` is
`maxAttempts - 1` (the remaining re-draws) and `i` indexes the draws. -/
def integerAttemptLoop (u g : ℕ → ℚ) (c : DistributionConfig) (lo hi : ℤ)
    (centerValue stdDev : ℚ) : ℕ → ℕ → ℤ
  | 0, i => integerAttemptValue u g c lo hi centerValue stdDev i
  | fuel + 1, i =>
    let value := integerAttemptValue u g c lo hi centerValue stdDev i
    if value < lo ∨ hi < value then
      integerAttemptLoop u g c lo hi centerValue stdDev fuel (i + 1)
    else value

/-- `generateConstrainedInteger(min, max, config, maxAttempts)`
(randomness.ts): uniform delegates to `uniformDistribution`; the curve types
loop up to `maxAttempts` rounded draws around
`centerValue = min + range * center` with
`stdDev = range * max(spread, 0.05)`, then clamp the final value into
`[min, max]`. -/
def generateConstrainedInteger (u g : ℕ → ℚ) (lo hi : ℤ) (c : DistributionConfig)
    (maxAttempts : ℕ) : ℤ :=
  if c.type = DistributionType.uniform then uniformDistribution (u 0) lo hi
  else
    let range : ℚ := (hi : ℚ) - (lo : ℚ)
    let centerValue := (lo : ℚ) + range * c.center
    let stdDev := range * max c.spread (0.05 : ℚ)
    max lo (min hi (integerAttemptLoop u g c lo hi centerValue stdDev (maxAttempts - 1) 0))

/-- One attempt of the do-while loop in `generateConstrainedDate` (times are
rational timestamps; no rounding happens here). -/
def dateAttemptValue (u g : ℕ → ℚ) (c : DistributionConfig)
    (startTime range centerTime stdDev : ℚ) (i : ℕ) : ℚ :=
  match c.type with
  | DistributionType.bell => normalDistribution (g i) centerTime stdDev
  | DistributionType.zCurve => zCurveDistribution (g i) centerTime stdDev
  | DistributionType.tCurve => tDistribution (g i) centerTime stdDev
  | DistributionType.uniform => startTime + u i * range

/-- The do-while loop of `generateConstrainedDate`. -/
def dateAttemptLoop (u g : ℕ → ℚ) (c : DistributionConfig)
    (startTime endTime range centerTime stdDev : ℚ) : ℕ → ℕ → ℚ
  | 0, i => dateAttemptValue u g c startTime range centerTime stdDev i
  | fuel + 1, i =>
    let time := dateAttemptValue u g c startTime range centerTime stdDev i
    if time < startTime ∨ endTime < time then
      dateAttemptLoop u g c startTime endTime range centerTime stdDev fuel (i + 1)
    else time

/-- `generateConstrainedDate(startDate, endDate, config, maxAttempts)`
(randomness.ts), with dates as rational timestamps (`getTime()` values):
uniform returns `start + random * range` directly; the curve types loop and
then clamp the final time into `[startTime, endTime]`. -/
def generateConstrainedDate (u g : ℕ → ℚ) (startTime endTime : ℚ)
    (c : DistributionConfig) (maxAttempts : ℕ) : ℚ :=
  let range := endTime - startTime
  if c.type = DistributionType.uniform then startTime + u 0 * range
  else
    let centerTime := startTime + range * c.center
    let stdDev := range * max c.spread (0.05 : ℚ)
    max startTime (min endTime
      (dateAttemptLoop u g c startTime endTime range centerTime stdDev (maxAttempts - 1) 0))

/-- The `{valid, successRate}` record returned by `validateDistribution`. -/
structure ValidationResult where
  valid : Bool
  successRate : ℚ
deriving DecidableEq

/-- Stream shifted so consecutive samples consume fresh draws. -/
def shiftStream (f : ℕ → ℚ) (i : ℕ) : ℕ → ℚ := fun k => f (i + k)

/-- The counting loop of `validateDistribution`: each sample is one
single-attempt (`maxAttempts = 1`) call of `generateConstrainedInteger`, and
the sample is counted when the RETURNED value lies in `[lo, hi]`. -/
def validateSuccessCount (u g : ℕ → ℚ) (c : DistributionConfig) (lo hi : ℤ) : ℕ → ℕ
  | 0 => 0
  | n + 1 =>
    validateSuccessCount u g c lo hi n +
      (if lo ≤ generateConstrainedInteger (shiftStream u n) (shiftStream g n) lo hi c 1 ∧
          generateConstrainedInteger (shiftStream u n) (shiftStream g n) lo hi c 1 ≤ hi
       then 1 else 0)

/-- `validateDistribution(config, min, max, sampleSize)` (randomness.ts):
uniform short-circuits to `{valid: true, successRate: 1}`; otherwise the
success rate is the counted fraction and `valid` is `successRate >= 0.8`. -/
def validateDistribution (u g : ℕ → ℚ) (c : DistributionConfig) (lo hi : ℤ)
    (sampleSize : ℕ) : ValidationResult :=
  if c.type = DistributionType.uniform then ⟨true, 1⟩
  else
    let successRate : ℚ := (validateSuccessCount u g c lo hi sampleSize : ℚ) / (sampleSize : ℚ)
    ⟨decide ((0.8 : ℚ) ≤ successRate), successRate⟩

/-! ## distributionPDF.ts -/

/-- `logGamma(x)` (distributionPDF.ts): 0 for nonpositive arguments, an exact
lookup for the small half-integers, Stirling's approximation otherwise (the
lookup constants are the source's literals). -/
noncomputable def logGamma (x : ℝ) : ℝ :=
  if x ≤ 0 then 0
  else if x = 0.5 then 0.5723649429247001
  else if x = 1 then 0
  else if x = 1.5 then -0.1207822376352452
  else if x = 2 then 0
  else if x = 2.5 then 0.2846828704729192
  else if x = 3 then 0.6931471805599453
  else (x - 0.5) * Real.log x - x + 0.5 * Real.log (2 * Real.pi)

/-- `calculateUniformPDF(x, center, spread)` (distributionPDF.ts). -/
noncomputable def calculateUniformPDF (x center spread : ℝ) : ℝ :=
  let halfSpread := spread / 2
  let lowerBound := max 0 (center - halfSpread)
  let upperBound := min 1 (center + halfSpread)
  if lowerBound ≤ x ∧ x ≤ upperBound then 1 else 0

/-- `calculateNormalPDF(x, center, spread)` (distributionPDF.ts). -/
noncomputable def calculateNormalPDF (x center spread : ℝ) : ℝ :=
  let sigma := max (spread * 0.4) 0.02
  let distance := x - center
  let exponent := -(distance * distance) / (2 * sigma * sigma)
  let coefficient := 1 / (sigma * Real.sqrt (2 * Real.pi))
  coefficient * Real.exp exponent

/-- `calculateTDistributionPDF(x, center, spread, degreesOfFreedom)`
(distributionPDF.ts); `Math.pow` on the positive base is real
exponentiation. -/
noncomputable def calculateTDistributionPDF (x center spread : ℝ)
    (degreesOfFreedom : ℕ) : ℝ :=
  let scale := max (spread * 0.4) 0.02
  let t := (x - center) / scale
  let df : ℝ := degreesOfFreedom
  let numerator := Real.exp (logGamma ((df + 1) / 2))
  let denominator := Real.sqrt (df * Real.pi) * Real.exp (logGamma (df / 2))
  let base := 1 + t * t / df
  let power := -(df + 1) / 2
  (numerator / denominator) * base ^ power / scale

/-- `calculatePDF(type, x, center, spread, degreesOfFreedom)`
(distributionPDF.ts): routes to the formula for the configured type. -/
noncomputable def calculatePDF (t : DistributionType) (x center spread : ℝ)
    (degreesOfFreedom : Option ℕ) : ℝ :=
  match t with
  | DistributionType.uniform => calculateUniformPDF x center spread
  | DistributionType.bell => calculateNormalPDF x center spread
  | DistributionType.zCurve => calculateNormalPDF x center spread
  | DistributionType.tCurve => calculateTDistributionPDF x center spread (dfOrFive degreesOfFreedom)

/-- The raw (pre-normalization) samples of `generatePDFCurve`: the PDF at
`pointCount` evenly spaced positions `i / (pointCount - 1)`. -/
noncomputable def pdfSamples (c : DistributionConfig) (pointCount : ℕ) : List ℝ :=
  (List.range pointCount).map
    (fun i => calculatePDF c.type ((i : ℝ) / ((pointCount : ℝ) - 1))
      (c.center : ℝ) (c.spread : ℝ) c.degreesOfFreedom)

/-- `generatePDFCurve(config, pointCount)` (distributionPDF.ts): sample the
PDF, then divide everything by `Math.max(...data, 0.0001)`. -/
noncomputable def generatePDFCurve (c : DistributionConfig) (pointCount : ℕ) : List ℝ :=
  let data := pdfSamples c pointCount
  let maxValue := data.foldr max (0.0001 : ℝ)
  data.map (fun v => v / maxValue)

/-! ## Concrete fixtures used by the witnesses and counterexamples -/

/-- The all-zero `Math.random()` oracle. -/
def zeroStream : ℕ → ℚ := fun _ => 0

/-- A sampler oracle whose every draw is far outside any small range. -/
def bigStream : ℕ → ℚ := fun _ => 5000

/-- A pattern with no name, age `"old"`, and no constraints. -/
def pOld : SearchPattern := ⟨"", "", "old", [("XXXX")], [], false⟩

/-- A pattern with every field empty and no constraints. -/
def pEmpty : SearchPattern := ⟨"", "", "", [("")], [], false⟩

/-- A pattern whose only constraint is `letter-range` `"65-90"` (the character
codes of A through Z). -/
def pLetter : SearchPattern := ⟨"", "", "", [("XX")], [⟨"letter-range", "65-90"⟩], false⟩

/-- A pattern whose only constraint is the parseable but inverted range
`"9-5"` (min 9, max 5). -/
def pBad9 : SearchPattern := ⟨"", "", "", [("X")], [⟨"range", "9-5"⟩], false⟩

/-- A pattern whose only constraint has the unparseable value `"abc"`. -/
def pAbc : SearchPattern := ⟨"", "", "", [("X")], [⟨"range", "abc"⟩], false⟩

/-- March 15, 2024 (month index 2). -/
def dMar : JSDate := ⟨2024, 2, 15, 0, 0, 0⟩

/-- June 1, 2024 (month index 5). -/
def dJun : JSDate := ⟨2024, 5, 1, 0, 0, 0⟩

/-- A bell configuration centered mid-range with a small spread. -/
def cfgBell : DistributionConfig := ⟨DistributionType.bell, 1 / 2, 1 / 20, none⟩

/-- A uniform PDF configuration whose window `[0.0045, 0.0055]` contains no
sample point of a 2-point curve. -/
def cfgNarrow : DistributionConfig := ⟨DistributionType.uniform, 1 / 200, 1 / 1000, none⟩

/-- A uniform PDF configuration covering all of `[0, 1]`. -/
def cfgFull : DistributionConfig := ⟨DistributionType.uniform, 1 / 2, 1, none⟩

/-! ## Helper lemmas -/

theorem ratFloor_eq (q : ℚ) : Rat.floor q = ⌊q⌋ := rfl

theorem getRandomInt_mem {u : ℚ} {lo hi : ℤ} (h : lo ≤ hi) (h0 : 0 ≤ u) (h1 : u < 1) :
    lo ≤ getRandomInt u lo hi ∧ getRandomInt u lo hi ≤ hi := by
  unfold getRandomInt
  rw [ratFloor_eq]
  have hk : ((hi : ℚ) - (lo : ℚ) + 1) = ((hi - lo + 1 : ℤ) : ℚ) := by push_cast; ring
  rw [hk]
  have hkq : (0 : ℚ) < ((hi - lo + 1 : ℤ) : ℚ) := by exact_mod_cast (by omega : (0:ℤ) < hi - lo + 1)
  have h2 : (0 : ℤ) ≤ ⌊u * ((hi - lo + 1 : ℤ) : ℚ)⌋ :=
    Int.floor_nonneg.mpr (mul_nonneg h0 hkq.le)
  have h3 : ⌊u * ((hi - lo + 1 : ℤ) : ℚ)⌋ < hi - lo + 1 := by
    rw [Int.floor_lt]
    calc u * ((hi - lo + 1 : ℤ) : ℚ) < 1 * ((hi - lo + 1 : ℤ) : ℚ) :=
          mul_lt_mul_of_pos_right h1 hkq
      _ = ((hi - lo + 1 : ℤ) : ℚ) := one_mul _
  omega

theorem clamp_mem {α : Type} [LinearOrder α] {lo hi : α} (h : lo ≤ hi) (v : α) :
    lo ≤ max lo (min hi v) ∧ max lo (min hi v) ≤ hi :=
  ⟨le_max_left _ _, max_le h (min_le_left _ _)⟩

theorem generateConstrainedInteger_mem (u g : ℕ → ℚ) (c : DistributionConfig)
    {lo hi : ℤ} (h : lo ≤ hi) (m : ℕ) (h0 : 0 ≤ u 0) (h1 : u 0 < 1) :
    lo ≤ generateConstrainedInteger u g lo hi c m ∧
      generateConstrainedInteger u g lo hi c m ≤ hi := by
  unfold generateConstrainedInteger
  by_cases hc : c.type = DistributionType.uniform
  · rw [if_pos hc]; exact getRandomInt_mem h h0 h1
  · rw [if_neg hc]; exact clamp_mem h _

theorem generateConstrainedInteger_mem_of_ne (u g : ℕ → ℚ) {c : DistributionConfig}
    (hc : c.type ≠ DistributionType.uniform) {lo hi : ℤ} (h : lo ≤ hi) (m : ℕ) :
    lo ≤ generateConstrainedInteger u g lo hi c m ∧
      generateConstrainedInteger u g lo hi c m ≤ hi := by
  unfold generateConstrainedInteger
  rw [if_neg hc]
  exact clamp_mem h _

theorem generateConstrainedDate_mem (u g : ℕ → ℚ) (c : DistributionConfig)
    {s e : ℚ} (h : s ≤ e) (m : ℕ) (h0 : 0 ≤ u 0) (h1 : u 0 < 1) :
    s ≤ generateConstrainedDate u g s e c m ∧ generateConstrainedDate u g s e c m ≤ e := by
  unfold generateConstrainedDate
  by_cases hc : c.type = DistributionType.uniform
  · rw [if_pos hc]
    constructor
    · have hx : 0 ≤ u 0 * (e - s) := mul_nonneg h0 (by linarith)
      linarith
    · have hx : u 0 * (e - s) ≤ 1 * (e - s) := mul_le_mul_of_nonneg_right h1.le (by linarith)
      linarith
  · rw [if_neg hc]
    exact clamp_mem h _

theorem validateSuccessCount_eq (u g : ℕ → ℚ) {c : DistributionConfig}
    (hc : c.type ≠ DistributionType.uniform) {lo hi : ℤ} (h : lo ≤ hi) :
    ∀ n : ℕ, validateSuccessCount u g c lo hi n = n := by
  intro n
  induction n with
  | zero => rfl
  | succ k ih =>
    unfold validateSuccessCount
    rw [ih, if_pos (generateConstrainedInteger_mem_of_ne _ _ hc h 1)]

/-! ## Claim C1 -/

/-- Claim C1 (code bug support): for every non-uniform configuration, every
range with `min ≤ max`, every positive sample size, and EVERY possible
sequence of sampler draws, `validateDistribution` returns
`{valid: true, successRate: 1}` — the in-range test is applied to the clamped
return value of `generateConstrainedInteger`, which always lies in
`[min, max]`, so the reported rate can never reflect the fraction of draws
that landed naturally in range before clamping. -/
theorem c1_validate_always_passes (u g : ℕ → ℚ) (c : DistributionConfig)
    (lo hi : ℤ) (n : ℕ) (hc : c.type ≠ DistributionType.uniform) (h : lo ≤ hi)
    (hn : 0 < n) :
    validateDistribution u g c lo hi n = ⟨true, 1⟩ := by
  unfold validateDistribution
  rw [if_neg hc]
  have hne : ((n : ℚ)) ≠ 0 := Nat.cast_ne_zero.mpr (by omega)
  simp only [validateSuccessCount_eq u g hc h, div_self hne]
  rw [decide_eq_true (by norm_num : (0.8 : ℚ) ≤ 1)]

/-- Claim C1 witness: at the bell configuration over `[0, 10]` with every
sampler draw equal to 5000 (naturally far outside the range), the validator
still reports full success. -/
theorem c1_witness :
    validateDistribution zeroStream bigStream cfgBell 0 10 2 = ⟨true, 1⟩ :=
  c1_validate_always_passes zeroStream bigStream cfgBell 0 10 2 (by decide)
    (by decide) (by decide)

/-! ## Claim C7 -/

/-- Claim C7: for every `min ≤ max`, every configuration, every
`maxAttempts ≥ 1` and every randomness, `generateConstrainedInteger` returns
a value in `[min, max]`; likewise `generateConstrainedDate` returns a
timestamp in `[startTime, endTime]` whenever `startTime ≤ endTime` (the clamp
guarantee).  `u` is the `Math.random()` stream (values in `[0, 1)`), `g` the
unconstrained sampler-output stream. -/
theorem c7_range_containment :
    (∀ (u g : ℕ → ℚ) (c : DistributionConfig) (lo hi : ℤ) (m : ℕ),
        1 ≤ m → lo ≤ hi → 0 ≤ u 0 → u 0 < 1 →
        lo ≤ generateConstrainedInteger u g lo hi c m ∧
          generateConstrainedInteger u g lo hi c m ≤ hi) ∧
    (∀ (u g : ℕ → ℚ) (c : DistributionConfig) (s e : ℚ) (m : ℕ),
        1 ≤ m → s ≤ e → 0 ≤ u 0 → u 0 < 1 →
        s ≤ generateConstrainedDate u g s e c m ∧
          generateConstrainedDate u g s e c m ≤ e) :=
  ⟨fun u g c lo hi m _ h h0 h1 => generateConstrainedInteger_mem u g c h m h0 h1,
   fun u g c s e m _ h h0 h1 => generateConstrainedDate_mem u g c h m h0 h1⟩

/-- Claim C7 witness: concrete instances of both clamp guarantees. -/
theorem c7_witness :
    ((0 : ℤ) ≤ generateConstrainedInteger zeroStream bigStream 0 9 cfgBell 1 ∧
      generateConstrainedInteger zeroStream bigStream 0 9 cfgBell 1 ≤ 9) ∧
    ((0 : ℚ) ≤ generateConstrainedDate zeroStream bigStream 0 100 cfgBell 1 ∧
      generateConstrainedDate zeroStream bigStream 0 100 cfgBell 1 ≤ 100) :=
  ⟨c7_range_containment.1 zeroStream bigStream cfgBell 0 9 1 (by decide) (by decide)
      (by decide) (by decide),
   c7_range_containment.2 zeroStream bigStream cfgBell 0 100 1 (by decide) (by decide)
      (by decide) (by decide)⟩

theorem getD_mem {α : Type} {l : List α} : ∀ {n : ℕ}, n < l.length → ∀ d, l.getD n d ∈ l := by
  induction l with
  | nil => intro n h; simp at h
  | cons x xs ih =>
    intro n h d
    cases n with
    | zero => simp
    | succ k =>
      simp only [List.getD_cons_succ]
      exact List.mem_cons_of_mem _ (ih (by simpa using h) d)

theorem splitOnChar_ne_nil (sep : Char) (l : List Char) : splitOnChar sep l ≠ [] := by
  induction l with
  | nil => simp [splitOnChar]
  | cons c cs ih =>
    unfold splitOnChar
    by_cases h : c = sep
    · rw [if_pos h]; simp
    · rw [if_neg h]
      cases hm : splitOnChar sep cs with
      | nil => simp
      | cons p ps => simp

theorem splitOnChar_sep_not_mem {sep : Char} {l part : List Char}
    (h : part ∈ splitOnChar sep l) : sep ∉ part := by
  induction l generalizing part with
  | nil =>
    simp only [splitOnChar, List.mem_singleton] at h
    subst h; simp
  | cons c cs ih =>
    unfold splitOnChar at h
    by_cases hc : c = sep
    · rw [if_pos hc] at h
      rcases List.mem_cons.mp h with h2 | h2
      · subst h2; simp
      · exact ih h2
    · rw [if_neg hc] at h
      cases hm : splitOnChar sep cs with
      | nil => exact absurd hm (splitOnChar_ne_nil sep cs)
      | cons p ps =>
        rw [hm] at h
        rcases List.mem_cons.mp h with h2 | h2
        · subst h2
          intro hmem
          rcases List.mem_cons.mp hmem with h3 | h3
          · exact hc h3.symm
          · exact ih (hm ▸ List.mem_cons_self p ps) h3
        · exact ih (hm ▸ List.mem_cons_of_mem p h2)

theorem jsParseInt_nonneg {l : List Char} (h : '-' ∉ l) :
    ∀ a : ℤ, jsParseInt l = some a → 0 ≤ a := by
  intro a ha
  unfold jsParseInt at ha
  have hsub : '-' ∉ l.dropWhile isJsSpace :=
    fun hm => h ((List.dropWhile_sublist _).mem hm)
  by_cases hh : (l.dropWhile isJsSpace).head? = some '-'
  · exact absurd (List.mem_of_mem_head? hh) hsub
  · rw [if_neg hh] at ha
    by_cases hp : (l.dropWhile isJsSpace).head? = some '+'
    · rw [if_pos hp] at ha
      cases hq : parseDigitsPre (l.dropWhile isJsSpace).tail with
      | none => rw [hq] at ha; cases ha
      | some n => rw [hq] at ha; simp at ha; omega
    · rw [if_neg hp] at ha
      cases hq : parseDigitsPre (l.dropWhile isJsSpace) with
      | none => rw [hq] at ha; cases ha
      | some n => rw [hq] at ha; simp at ha; omega

/-! ## Claim C10 -/

/-- Claim C10: a constraint value with a negative bound splits on `'-'` into a
number of parts other than two, so `parseRangeConstraint` returns `none` (and
`fillSpecifierTemplate` then falls back to the default range); moreover no
successful parse can ever produce a negative bound, because the split parts
contain no `'-'` character. -/
theorem c10_negative_bounds :
    (splitOnChar '-' (("-5-10").data)).length = 3 ∧
    parseRangeConstraint (("-5-10").data) = none ∧
    (splitOnChar '-' (("5--3").data)).length = 3 ∧
    parseRangeConstraint (("5--3").data) = none ∧
    (∀ (v : List Char) (r : RangeBounds), parseRangeConstraint v = some r →
      0 ≤ r.min ∧ 0 ≤ r.max) := by
  refine ⟨by decide, by decide, by decide, by decide, ?_⟩
  intro v r hr
  unfold parseRangeConstraint at hr
  by_cases hl : (splitOnChar '-' v).length ≠ 2
  · rw [if_pos hl] at hr; cases hr
  · rw [if_neg hl] at hr
    push_neg at hl
    have hmem0 : (splitOnChar '-' v).getD 0 [] ∈ splitOnChar '-' v :=
      getD_mem (by omega) []
    have hmem1 : (splitOnChar '-' v).getD 1 [] ∈ splitOnChar '-' v :=
      getD_mem (by omega) []
    have h0 := jsParseInt_nonneg (splitOnChar_sep_not_mem hmem0)
    have h1 := jsParseInt_nonneg (splitOnChar_sep_not_mem hmem1)
    revert hr
    cases hp0 : jsParseInt ((splitOnChar '-' v).getD 0 []) with
    | none => intro hr; cases hr
    | some a =>
      cases hp1 : jsParseInt ((splitOnChar '-' v).getD 1 []) with
      | none => intro hr; cases hr
      | some b =>
        intro hr
        cases hr
        exact ⟨h0 a hp0, h1 b hp1⟩

/-- Claim C10 witness: a successful parse with nonnegative bounds. -/
theorem c10_witness : (0 : ℤ) ≤ (RangeBounds.mk 10 20).min ∧ (0 : ℤ) ≤ (RangeBounds.mk 10 20).max :=
  c10_negative_bounds.2.2.2.2 (("10-20").data) (RangeBounds.mk 10 20) (by decide)

/-! ## Claim C4 -/

theorem constraintFold_id {c : Constraint}
    (h : (c.type = "range" ∨ c.type = "letter-range" ∨ c.type = "hex-range") →
      parseRangeConstraint c.value.data = none)
    (acc : ℤ × ℤ × FillKind) : constraintFold acc c = acc := by
  unfold constraintFold
  by_cases h1 : c.type = "range"
  · rw [if_pos h1, h (Or.inl h1)]
  · rw [if_neg h1]
    by_cases h2 : c.type = "letter-range"
    · rw [if_pos h2, h (Or.inr (Or.inl h2))]
    · rw [if_neg h2]
      by_cases h3 : c.type = "hex-range"
      · rw [if_pos h3, h (Or.inr (Or.inr h3))]
      · rw [if_neg h3]

theorem foldl_constraintFold_id {cs : List Constraint}
    (h : ∀ c ∈ cs, (c.type = "range" ∨ c.type = "letter-range" ∨ c.type = "hex-range") →
      parseRangeConstraint c.value.data = none) :
    ∀ acc : ℤ × ℤ × FillKind, cs.foldl constraintFold acc = acc := by
  induction cs with
  | nil => intro acc; rfl
  | cons c cs ih =>
    intro acc
    rw [List.foldl_cons, constraintFold_id (h c (List.mem_cons_self c cs)),
      ih (fun x hx => h x (List.mem_cons_of_mem _ hx))]

theorem applyConstraints_default {cs : List Constraint}
    (h : ∀ c ∈ cs, (c.type = "range" ∨ c.type = "letter-range" ∨ c.type = "hex-range") →
      parseRangeConstraint c.value.data = none) (n : ℕ) :
    applyConstraints cs n = applyConstraints [] n := by
  unfold applyConstraints
  rw [foldl_constraintFold_id h]
  rfl

theorem xReplacement_default {cs : List Constraint}
    (h : ∀ c ∈ cs, (c.type = "range" ∨ c.type = "letter-range" ∨ c.type = "hex-range") →
      parseRangeConstraint c.value.data = none) (u : ℚ) (n : ℕ) :
    xReplacement cs u n = xReplacement [] u n := by
  unfold xReplacement
  rw [applyConstraints_default h]

theorem foldl_fun_congr {α β : Type} {f f' : β → α → β}
    (h : ∀ b a, f b a = f' b a) :
    ∀ (l : List α) (b : β), l.foldl f b = l.foldl f' b := by
  intro l
  induction l with
  | nil => intro b; rfl
  | cons a l ih => intro b; rw [List.foldl_cons, List.foldl_cons, h, ih]

theorem processXRuns_default {cs : List Constraint}
    (h : ∀ c ∈ cs, (c.type = "range" ∨ c.type = "letter-range" ∨ c.type = "hex-range") →
      parseRangeConstraint c.value.data = none) (g : ℕ → ℚ) (l : List Char) :
    processXRuns cs g l = processXRuns [] g l := by
  unfold processXRuns
  exact foldl_fun_congr (fun b a => by rw [xReplacement_default h]) _ _

/-- Claim C4 counterexample: the constraint `range` `"9-5"` parses (to min 9,
max 5, with min > max), and `fillSpecifierTemplate` applies it instead of
ignoring it: with every random draw 0 the constrained fill of `"X"` yields
`"9"`, while the unconstrained default range would yield `"0"`. -/
theorem c4_counterexample :
    fillSpecifierTemplate ("X") pBad9 dMar zeroStream = "9" ∧
    fillSpecifierTemplate ("X") { pBad9 with constraints := [] } dMar zeroStream = "0" ∧
    fillSpecifierTemplate ("X") pBad9 dMar zeroStream ≠
      fillSpecifierTemplate ("X") { pBad9 with constraints := [] } dMar zeroStream := by
  have h1 : fillSpecifierTemplate ("X") pBad9 dMar zeroStream = "9" := by
    with_unfolding_all rfl
  have h2 : fillSpecifierTemplate ("X") { pBad9 with constraints := [] } dMar zeroStream = "0" := by
    with_unfolding_all rfl
  refine ⟨h1, h2, ?_⟩
  rw [h1, h2]
  decide

/-- Claim C4 (amended): a `range`/`letter-range`/`hex-range` constraint is
ignored exactly when `parseRangeConstraint` fails on its value (the value does
not split into two `parseInt`-able parts); when every such constraint is
unparseable, filling behaves as if the pattern had no constraints at all, so
each run of length `n` uses the default range `[0, 10^n - 1]`.  A parseable
constraint with min > max is NOT ignored (see the counterexample). -/
theorem c4_amended (specifier : String) (p : SearchPattern) (d : JSDate) (g : ℕ → ℚ)
    (h : ∀ c ∈ p.constraints,
      (c.type = "range" ∨ c.type = "letter-range" ∨ c.type = "hex-range") →
      parseRangeConstraint c.value.data = none) :
    fillSpecifierTemplate specifier p d g =
      fillSpecifierTemplate specifier { p with constraints := [] } d g := by
  unfold fillSpecifierTemplate
  by_cases hs : specifier = ""
  · rw [if_pos hs, if_pos hs]
  · rw [if_neg hs, if_neg hs, processXRuns_default h]

/-- Claim C4 witness: a constraint with the unparseable value `"abc"` is
ignored. -/
theorem c4_witness :
    fillSpecifierTemplate ("X") pAbc dMar zeroStream =
      fillSpecifierTemplate ("X") { pAbc with constraints := [] } dMar zeroStream :=
  c4_amended ("X") pAbc dMar zeroStream (by decide)

/-! ## Claim C3 -/

theorem fill_XX_letter (g : ℕ → ℚ) :
    fillSpecifierTemplate ("XX") pLetter dMar g =
      String.mk ['0', jsFromCharCode (getRandomInt (g 0) 65 90)] := by
  with_unfolding_all rfl

/-- Claim C3 counterexample: with the letter-range constraint `"65-90"` and
every random draw 0, the fill of `"XX"` is `"0A"` — a zero followed by ONE
letter, not two uppercase letters: the generator draws a single character
code per run and the zero-padding fills the rest. -/
theorem c3_counterexample :
    fillSpecifierTemplate ("XX") pLetter dMar zeroStream = "0A" ∧
    ¬ (∀ ch ∈ (fillSpecifierTemplate ("XX") pLetter dMar zeroStream).data,
        'A' ≤ ch ∧ ch ≤ 'Z') := by
  have h1 : fillSpecifierTemplate ("XX") pLetter dMar zeroStream = "0A" := by
    with_unfolding_all rfl
  refine ⟨h1, ?_⟩
  rw [h1]
  decide

/-- Claim C3 (amended): for the template `"XX"` under the single constraint
`letter-range` `"65-90"` and every random stream with draws in `[0, 1)`, the
output is exactly two characters: the pad character `'0'` followed by one
uppercase letter in A-Z. -/
theorem c3_amended (g : ℕ → ℚ) (hg : ∀ k, 0 ≤ g k ∧ g k < 1) :
    ∃ ch : Char, ('A' ≤ ch ∧ ch ≤ 'Z') ∧
      fillSpecifierTemplate ("XX") pLetter dMar g = String.mk ['0', ch] := by
  obtain ⟨h0, h1⟩ := hg 0
  have hmem := getRandomInt_mem (by decide : (65 : ℤ) ≤ 90) h0 h1
  refine ⟨jsFromCharCode (getRandomInt (g 0) 65 90), ?_, fill_XX_letter g⟩
  obtain ⟨ha, hb⟩ := hmem
  generalize hr : getRandomInt (g 0) 65 90 = rnd at ha hb ⊢
  interval_cases rnd <;> exact ⟨by decide, by decide⟩

/-- Claim C3 witness: the two-character shape at the all-zero stream. -/
theorem c3_witness :
    ∃ ch : Char, ('A' ≤ ch ∧ ch ≤ 'Z') ∧
      fillSpecifierTemplate ("XX") pLetter dMar zeroStream = String.mk ['0', ch] :=
  c3_amended zeroStream (fun _ => ⟨le_refl 0, (by norm_num : (0 : ℚ) < 1)⟩)

/-! ## Claim C6 -/

/-- Claim C6 counterexample: on the template `"MMonth"` with reference date
2024-03-15, `fillSpecifierTemplate` produces `"03arch"` — the later-processed
`MM` token re-matched and re-substituted the leading `M` of the `Month`
replacement `"March"` — while the spec's one-pass no-re-match reading
(`onePassFill`) produces `"03onth"`. -/
theorem c6_counterexample :
    fillSpecifierTemplate ("MMonth") pEmpty dMar zeroStream = "03arch" ∧
    onePassFill ("MMonth") pEmpty dMar zeroStream = "03onth" ∧
    fillSpecifierTemplate ("MMonth") pEmpty dMar zeroStream ≠
      onePassFill ("MMonth") pEmpty dMar zeroStream :=
  ⟨by decide, by decide, by decide⟩

/-- Claim C6 (amended): the token stages run in the order YYYY, Month, Mon,
MM, DD, HH, mm, SS, then X runs, but a later-processed token pattern CAN
re-match earlier replacement text, so the no-re-match guarantee fails in
general: sequential filling agrees with the one-pass reading on templates
whose token occurrences do not abut (for example `"YYYY MM DD"` and
`"HHmmSS"`, for every random stream), yet on `"MMonth"` the `MM` stage
re-consumes the leading `M` of the `Month` replacement, giving `"03arch"`
instead of the one-pass `"03onth"`. -/
theorem c6_amended :
    (∀ g : ℕ → ℚ, fillSpecifierTemplate ("YYYY MM DD") pEmpty dMar g =
      onePassFill ("YYYY MM DD") pEmpty dMar g) ∧
    (∀ g : ℕ → ℚ, fillSpecifierTemplate ("HHmmSS") pEmpty dMar g =
      onePassFill ("HHmmSS") pEmpty dMar g) ∧
    fillSpecifierTemplate ("MMonth") pEmpty dMar zeroStream = "03arch" ∧
    onePassFill ("MMonth") pEmpty dMar zeroStream = "03onth" :=
  ⟨fun _ => rfl, fun _ => rfl, by decide, by decide⟩

/-! ## Claim C5 -/

/-- Claim C5 (amended): with `dateOverride = false`, whenever the specifier
contains the token `YYYY` AND the quoted filled search term contains a
standalone four-digit run (word boundaries on both sides), the date filter is
`after:<that run>-<month>-<day>` with the reference date's month and day NOT
zero-padded.  When no standalone four-digit run exists (for example when the
year digits merge with adjacent digits), the filter falls through to the age
rules instead (see the counterexample). -/
theorem c5_amended (specifier : String) (p : SearchPattern) (d : JSDate)
    (searchTerm : String) (y : List Char)
    (hY : containsSub specifier.data tokYYYY = true)
    (hR : firstFourDigitRun searchTerm.data = some y) :
    determineDateFilter specifier p d searchTerm false =
      String.mk (("after:").data ++ y ++ ['-'] ++ natToChars (d.month.val + 1)
        ++ ['-'] ++ natToChars d.day) := by
  unfold determineDateFilter
  rw [if_neg (by simp), if_pos hY, hR]

/-- Claim C5 counterexample: for the pattern with age `"old"` and specifier
`"YYYYXX"` (every draw 0), the filled quoted term is `"202400"`, whose six
consecutive digits admit no standalone four-digit run, so no `after:` filter
is produced at all — the URL contains no `"after"` and the filter falls back
to the padded `before:` of the age rule. -/
theorem c5_counterexample :
    containsSub (formatSearchTermToURL pOld ("YYYYXX") dJun false zeroStream).data
      (("after").data) = false ∧
    determineDateFilter ("YYYYXX") pOld dJun
      (quotedSearchTerm pOld ("YYYYXX") dJun zeroStream) false = "before:2024-06-01" := by
  constructor
  · with_unfolding_all rfl
  · with_unfolding_all rfl

/-- Claim C5 witness: specifier `"YYYY"`, reference date 2024-06-01, quoted
filled term `"2024"` gives the unpadded filter `after:2024-6-1`. -/
theorem c5_witness :
    determineDateFilter ("YYYY") pOld dJun ("\"2024\"") false = "after:2024-6-1" := by
  have h := c5_amended ("YYYY") pOld dJun ("\"2024\"") (("2024").data) (by decide) (by decide)
  rw [h]
  decide

/-! ## Claim C9 -/

/-- Claim C9: the embeddings of `fillSpecifierTemplate` and
`formatSearchTermToURL` are total functions: for EVERY pattern (any name, any
age, any constraint list — parseable or not), every specifier string (empty
included), every date, every override flag and every random stream, the
formatter returns a well-formed URL — the fixed prefix
`https://www.youtube.com/results?search_query=`, a serialized query, and the
fixed suffix `&sp=CAISAhAB` — and the filler returns a string (the empty
specifier fills to the empty string).  No input of the data model can make
either function fail; this is the no-throw property in the shallow
embedding, where a throwing operation would have to be modelled as a partial
function. -/
theorem c9_no_throw :
    (∀ (p : SearchPattern) (specifier : String) (d : JSDate) (dateOverride : Bool)
        (g : ℕ → ℚ),
      ∃ q : List Char,
        (formatSearchTermToURL p specifier d dateOverride g).data = urlHead ++ q ++ urlTail) ∧
    (∀ (p : SearchPattern) (d : JSDate) (g : ℕ → ℚ),
      fillSpecifierTemplate ("") p d g = "") :=
  ⟨fun p specifier d dateOverride g =>
    ⟨formUrlEncode (fullSearchTerm p specifier d dateOverride g).data, rfl⟩,
   fun _ _ _ => rfl⟩

/-! ## Claim C2 -/

theorem digitCh_isDigit {n : ℕ} (h : n < 10) : (digitCh n).isDigit = true := by
  interval_cases n <;> decide

theorem natDigitsAux_digits : ∀ (fuel n : ℕ), n < fuel →
    ∀ ch ∈ natDigitsAux fuel n, ch.isDigit = true := by
  intro fuel
  induction fuel with
  | zero => intro n h; omega
  | succ f ih =>
    intro n h ch hch
    unfold natDigitsAux at hch
    by_cases h10 : n < 10
    · rw [if_pos h10] at hch
      rw [List.mem_singleton.mp hch]
      exact digitCh_isDigit h10
    · rw [if_neg h10] at hch
      rcases List.mem_append.mp hch with hl | hr
      · have hd : n / 10 < n := Nat.div_lt_self (by omega) (by omega)
        exact ih (n / 10) (by omega) ch hl
      · rw [List.mem_singleton.mp hr]
        exact digitCh_isDigit (Nat.mod_lt _ (by omega))

theorem natDigitsAux_length : ∀ (fuel n k : ℕ), n < fuel → n < 10 ^ k → 1 ≤ k →
    (natDigitsAux fuel n).length ≤ k := by
  intro fuel
  induction fuel with
  | zero => intro n k h; omega
  | succ f ih =>
    intro n k h hk h1
    unfold natDigitsAux
    by_cases h10 : n < 10
    · rw [if_pos h10]; simpa using h1
    · rw [if_neg h10]
      rcases k with _ | j
      · omega
      · have hj : 1 ≤ j := by
          by_contra hj0
          have hj1 : j = 0 := by omega
          subst hj1
          rw [pow_one] at hk
          omega
        have hdiv : n / 10 < f := by
          have hlt := Nat.div_lt_self (n := n) (by omega) (by omega : 1 < 10)
          omega
        have hpow : n / 10 < 10 ^ j := by
          rw [Nat.div_lt_iff_lt_mul (by omega : 0 < 10)]
          calc n < 10 ^ (j + 1) := hk
            _ = 10 ^ j * 10 := by rw [pow_succ]
        have hlen := ih (n / 10) j hdiv hpow hj
        rw [List.length_append, List.length_singleton]
        omega

theorem natToChars_digits (n : ℕ) : ∀ ch ∈ natToChars n, ch.isDigit = true :=
  natDigitsAux_digits (n + 1) n (by omega)

theorem natToChars_length {n k : ℕ} (h : n < 10 ^ k) (hk : 1 ≤ k) :
    (natToChars n).length ≤ k :=
  natDigitsAux_length (n + 1) n k (by omega) h hk

theorem padStartList_length {l : List Char} {n : ℕ} (h : l.length ≤ n) (c : Char) :
    (padStartList l n c).length = n := by
  simp [padStartList]
  omega

theorem padStartList_digits {l : List Char} (hl : ∀ ch ∈ l, ch.isDigit = true) (n : ℕ) :
    ∀ ch ∈ padStartList l n '0', ch.isDigit = true := by
  intro ch hch
  rcases List.mem_append.mp hch with h | h
  · rw [List.eq_of_mem_replicate h]; decide
  · exact hl ch h

theorem intToChars_nonneg {i : ℤ} (h : 0 ≤ i) : intToChars i = natToChars i.toNat := by
  unfold intToChars
  rw [if_neg (by omega)]

theorem formUrlEncodeChar_digit {c : Char} (h : c.isDigit = true) :
    formUrlEncodeChar c = [c] := by
  have hsafe : formUrlSafeChar c = true := by
    simp [formUrlSafeChar, Char.isAlphanum, h]
  have hsp : ¬ (c = ' ') := by
    intro he
    rw [he] at h
    exact absurd h (by decide)
  unfold formUrlEncodeChar
  rw [if_neg hsp, if_pos hsafe]

theorem formUrlEncode_append (a b : List Char) :
    formUrlEncode (a ++ b) = formUrlEncode a ++ formUrlEncode b := by
  simp [formUrlEncode]

theorem formUrlEncode_digits {t : List Char} (h : ∀ ch ∈ t, ch.isDigit = true) :
    formUrlEncode t = t := by
  induction t with
  | nil => rfl
  | cons c cs ih =>
    have hc : formUrlEncodeChar c = [c] :=
      formUrlEncodeChar_digit (h c (List.mem_cons_self c cs))
    have hsplit : formUrlEncode (c :: cs) = formUrlEncodeChar c ++ formUrlEncode cs := by
      simp [formUrlEncode]
    rw [hsplit, hc, ih (fun x hx => h x (List.mem_cons_of_mem _ hx))]
    rfl

theorem fill_XXXX (g : ℕ → ℚ) :
    fillSpecifierTemplate ("XXXX") pOld dMar g =
      String.mk (padStartList (intToChars (getRandomInt (g 0) 0 9999)) 4 '0') := by
  have h : fillSpecifierTemplate ("XXXX") pOld dMar g =
      String.mk (padStartList (intToChars (getRandomInt (g 0) 0 9999)) 4 '0' ++ []) := by
    with_unfolding_all rfl
  rw [h, List.append_nil]

theorem dateFilter_XXXX (st : String) :
    determineDateFilter ("XXXX") pOld dMar st false = "before:2024-03-15" := rfl

/-- Claim C2 counterexample: at the all-zero random stream, the URL built for
the age-`"old"` pattern with specifier `"XXXX"` and reference date 2024-03-15
does not contain the text `before:2024-3-15` anywhere: the produced filter
zero-pads the month and day (`before:2024-03-15`) and the URL carries it
form-encoded (`before%3A2024-03-15`). -/
theorem c2_counterexample :
    containsSub (formatSearchTermToURL pOld ("XXXX") dMar false zeroStream).data
      (("before:2024-3-15").data) = false := by
  with_unfolding_all rfl

/-- Claim C2 (amended): for the age-`"old"` pattern with specifier `"XXXX"`,
`dateOverride = false`, reference date 2024-03-15 and every random stream
with draws in `[0, 1)`, the URL is exactly the fixed prefix, the form-encoded
quoted four-digit filled term (`%22` + 4 digits + `%22`), then the
form-encoded date filter with ZERO-PADDED month and day
(`+before%3A2024-03-15`), then the fixed sort parameter. -/
theorem c2_amended (g : ℕ → ℚ) (hg : ∀ k, 0 ≤ g k ∧ g k < 1) :
    ∃ t : List Char, t.length = 4 ∧ (∀ ch ∈ t, ch.isDigit = true) ∧
      formatSearchTermToURL pOld ("XXXX") dMar false g =
        String.mk ((("https://www.youtube.com/results?search_query=%22").data ++ t)
          ++ (("%22+before%3A2024-03-15&sp=CAISAhAB").data)) := by
  obtain ⟨h0, h1⟩ := hg 0
  have hmem := getRandomInt_mem (by decide : (0 : ℤ) ≤ 9999) h0 h1
  have hnn : intToChars (getRandomInt (g 0) 0 9999) =
      natToChars (getRandomInt (g 0) 0 9999).toNat := intToChars_nonneg hmem.1
  have hdig : ∀ ch ∈ padStartList (intToChars (getRandomInt (g 0) 0 9999)) 4 '0',
      ch.isDigit = true := by
    rw [hnn]
    exact padStartList_digits (natToChars_digits _) 4
  have hlt : (getRandomInt (g 0) 0 9999).toNat < 10 ^ 4 := by
    have h2 := hmem.1
    have h3 := hmem.2
    norm_num
    omega
  have hlen : (padStartList (intToChars (getRandomInt (g 0) 0 9999)) 4 '0').length = 4 := by
    rw [hnn]
    exact padStartList_length (natToChars_length hlt (by norm_num)) '0'
  refine ⟨padStartList (intToChars (getRandomInt (g 0) 0 9999)) 4 '0', hlen, hdig, ?_⟩
  have hne : fillSpecifierTemplate ("XXXX") pOld dMar g ≠ "" := by
    rw [fill_XXXX g]
    intro hcontra
    have hdata : padStartList (intToChars (getRandomInt (g 0) 0 9999)) 4 '0' = [] :=
      congrArg String.data hcontra
    rw [hdata] at hlen
    simp at hlen
  have hgen : generateSearchTerm pOld.name ("XXXX") pOld dMar g =
      fillSpecifierTemplate ("XXXX") pOld dMar g := by
    unfold generateSearchTerm
    rw [if_neg (by decide : ¬ ("XXXX" : String) = ""), if_neg hne]
    rfl
  have hquoted : quotedSearchTerm pOld ("XXXX") dMar g =
      String.mk ('"' :: padStartList (intToChars (getRandomInt (g 0) 0 9999)) 4 '0' ++ ['"']) := by
    unfold quotedSearchTerm
    rw [hgen, fill_XXXX g]
  have hfull : fullSearchTerm pOld ("XXXX") dMar false g =
      quotedSearchTerm pOld ("XXXX") dMar g ++ " " ++ "before:2024-03-15" := by
    unfold fullSearchTerm
    rw [dateFilter_XXXX, if_neg (by decide : ¬ ("before:2024-03-15" : String) = "")]
  unfold formatSearchTermToURL
  rw [hfull, hquoted]
  apply congrArg String.mk
  have hdata2 : (String.mk ('"' :: padStartList (intToChars (getRandomInt (g 0) 0 9999)) 4 '0'
        ++ ['"']) ++ " " ++ "before:2024-03-15").data =
      (['"'] ++ padStartList (intToChars (getRandomInt (g 0) 0 9999)) 4 '0')
        ++ (['"'] ++ ((" ").data ++ ("before:2024-03-15").data)) := by
    simp
  rw [hdata2]
  simp only [formUrlEncode_append]
  rw [show formUrlEncode (['"']) = '%' :: '2' :: '2' :: [] from rfl,
    show formUrlEncode ((" ").data) = ['+'] from rfl,
    show formUrlEncode (("before:2024-03-15").data) = ("before%3A2024-03-15").data from rfl,
    formUrlEncode_digits hdig]
  simp only [List.append_assoc]
  with_unfolding_all rfl

/-- Claim C2 witness: the amended URL shape at the all-zero stream. -/
theorem c2_witness :
    ∃ t : List Char, t.length = 4 ∧ (∀ ch ∈ t, ch.isDigit = true) ∧
      formatSearchTermToURL pOld ("XXXX") dMar false zeroStream =
        String.mk ((("https://www.youtube.com/results?search_query=%22").data ++ t)
          ++ (("%22+before%3A2024-03-15&sp=CAISAhAB").data)) :=
  c2_amended zeroStream (fun _ => ⟨le_refl 0, (by norm_num : (0 : ℚ) < 1)⟩)

/-! ## Claim C8 -/

theorem dfOrFive_pos (o : Option ℕ) : 1 ≤ dfOrFive o := by
  cases o with
  | none => norm_num [dfOrFive]
  | some n =>
    by_cases h : n = 0
    · simp [dfOrFive, h]
    · simp only [dfOrFive, if_neg h]
      omega

theorem calculateNormalPDF_nonneg (x center spread : ℝ) :
    0 ≤ calculateNormalPDF x center spread := by
  simp only [calculateNormalPDF]
  have hs : (0 : ℝ) < max (spread * 0.4) 0.02 := lt_max_iff.mpr (Or.inr (by norm_num))
  have h1 : 0 ≤ 1 / (max (spread * 0.4) 0.02 * Real.sqrt (2 * Real.pi)) :=
    div_nonneg zero_le_one (mul_nonneg hs.le (Real.sqrt_nonneg _))
  exact mul_nonneg h1 (Real.exp_pos _).le

theorem calculateTDistributionPDF_nonneg (x center spread : ℝ) (df : ℕ) (hdf : 1 ≤ df) :
    0 ≤ calculateTDistributionPDF x center spread df := by
  simp only [calculateTDistributionPDF]
  have hs : (0 : ℝ) < max (spread * 0.4) 0.02 := lt_max_iff.mpr (Or.inr (by norm_num))
  have hdfR : (0 : ℝ) < (df : ℝ) := by
    exact_mod_cast Nat.pos_of_ne_zero (by omega)
  have hbase : (0 : ℝ) < 1 + (x - center) / max (spread * 0.4) 0.02 *
      ((x - center) / max (spread * 0.4) 0.02) / (df : ℝ) := by
    have hq : (0 : ℝ) ≤ (x - center) / max (spread * 0.4) 0.02 *
        ((x - center) / max (spread * 0.4) 0.02) / (df : ℝ) :=
      div_nonneg (mul_self_nonneg _) hdfR.le
    linarith
  refine div_nonneg (mul_nonneg ?_ ?_) hs.le
  · exact div_nonneg (Real.exp_pos _).le
      (mul_nonneg (Real.sqrt_nonneg _) (Real.exp_pos _).le)
  · exact (Real.rpow_pos_of_pos hbase _).le

theorem calculatePDF_nonneg (t : DistributionType) (x center spread : ℝ) (dof : Option ℕ) :
    0 ≤ calculatePDF t x center spread dof := by
  cases t with
  | uniform =>
    simp only [calculatePDF, calculateUniformPDF]
    split <;> norm_num
  | bell => exact calculateNormalPDF_nonneg x center spread
  | zCurve => exact calculateNormalPDF_nonneg x center spread
  | tCurve => exact calculateTDistributionPDF_nonneg x center spread _ (dfOrFive_pos dof)

theorem foldrMax_init_le {α : Type} [LinearOrder α] (a : α) (l : List α) :
    a ≤ l.foldr max a := by
  induction l with
  | nil => exact le_refl a
  | cons x xs ih => exact le_trans ih (le_max_right x _)

theorem le_foldrMax_of_mem {α : Type} [LinearOrder α] {a x : α} {l : List α}
    (h : x ∈ l) : x ≤ l.foldr max a := by
  induction l with
  | nil => cases h
  | cons y ys ih =>
    rcases List.mem_cons.mp h with h2 | h2
    · rw [h2]; exact le_max_left _ _
    · exact le_trans (ih h2) (le_max_right _ _)

theorem foldrMax_mem_or_eq {α : Type} [LinearOrder α] (a : α) (l : List α) :
    l.foldr max a ∈ l ∨ l.foldr max a = a := by
  induction l with
  | nil => exact Or.inr rfl
  | cons x xs ih =>
    rcases max_choice x (xs.foldr max a) with h | h
    · exact Or.inl (by rw [List.foldr_cons, h]; exact List.mem_cons_self x xs)
    · rcases ih with h2 | h2
      · exact Or.inl (by rw [List.foldr_cons, h]; exact List.mem_cons_of_mem _ h2)
      · exact Or.inr (by rw [List.foldr_cons, h, h2])

/-- Claim C8 (amended): for every configuration and `pointCount ≥ 2`, every
value of `generatePDFCurve` lies in `[0, 1]`; and the maximum value 1 is
actually attained EXACTLY when some raw PDF sample reaches the division
floor 0.0001 — when the raw curve stays everywhere below 0.0001 (for example
a narrow uniform window that misses every sample point), the normalized curve
tops out below 1 instead. -/
theorem c8_amended (c : DistributionConfig) (n : ℕ) (hn : 2 ≤ n) :
    (∀ v ∈ generatePDFCurve c n, 0 ≤ v ∧ v ≤ 1) ∧
    ((∃ v ∈ pdfSamples c n, (0.0001 : ℝ) ≤ v) → (1 : ℝ) ∈ generatePDFCurve c n) := by
  have hraw : ∀ v ∈ pdfSamples c n, 0 ≤ v := by
    intro v hv
    rcases List.mem_map.mp hv with ⟨i, _, hvi⟩
    rw [← hvi]
    exact calculatePDF_nonneg _ _ _ _ _
  have hMpos : (0 : ℝ) < (pdfSamples c n).foldr max (0.0001 : ℝ) :=
    lt_of_lt_of_le (by norm_num) (foldrMax_init_le _ _)
  constructor
  · intro v hv
    simp only [generatePDFCurve] at hv
    rcases List.mem_map.mp hv with ⟨w, hw, hvw⟩
    rw [← hvw]
    constructor
    · exact div_nonneg (hraw w hw) hMpos.le
    · rw [div_le_one hMpos]
      exact le_foldrMax_of_mem hw
  · rintro ⟨v, hv, hv4⟩
    have hvM : v ≤ (pdfSamples c n).foldr max (0.0001 : ℝ) := le_foldrMax_of_mem hv
    have hMmem : (pdfSamples c n).foldr max (0.0001 : ℝ) ∈ pdfSamples c n := by
      rcases foldrMax_mem_or_eq (0.0001 : ℝ) (pdfSamples c n) with h | h
      · exact h
      · have hveq : v = (pdfSamples c n).foldr max (0.0001 : ℝ) :=
          le_antisymm hvM (by rw [h]; exact hv4)
        rw [← hveq]
        exact hv
    simp only [generatePDFCurve]
    exact List.mem_map.mpr ⟨_, hMmem, div_self hMpos.ne'⟩

/-- Claim C8 counterexample: the configuration `uniform, center 0.005,
spread 0.001` is non-degenerate (its density window `[0.0045, 0.0055]` is
nonempty and inside `[0, 1]`), yet with `pointCount = 2` both sample
positions (0 and 1) miss the window, the raw curve is all-zero, and the
returned curve is `[0, 0]` — its maximum is 0, not 1. -/
theorem c8_counterexample :
    generatePDFCurve cfgNarrow 2 = [0, 0] ∧ (1 : ℝ) ∉ generatePDFCurve cfgNarrow 2 := by
  have e0 : calculateUniformPDF 0 ((cfgNarrow.center : ℚ) : ℝ) ((cfgNarrow.spread : ℚ) : ℝ) = 0 := by
    simp only [calculateUniformPDF]
    split
    · rename_i hcon
      exfalso
      have h2 := le_trans (le_max_right _ _) hcon.1
      rw [show cfgNarrow.center = (1 / 200 : ℚ) from rfl,
        show cfgNarrow.spread = (1 / 1000 : ℚ) from rfl] at h2
      push_cast at h2
      norm_num at h2
    · rfl
  have e1 : calculateUniformPDF 1 ((cfgNarrow.center : ℚ) : ℝ) ((cfgNarrow.spread : ℚ) : ℝ) = 0 := by
    simp only [calculateUniformPDF]
    split
    · rename_i hcon
      exfalso
      have h2 := le_trans hcon.2 (min_le_right _ _)
      rw [show cfgNarrow.center = (1 / 200 : ℚ) from rfl,
        show cfgNarrow.spread = (1 / 1000 : ℚ) from rfl] at h2
      push_cast at h2
      norm_num at h2
    · rfl
  have hdata : pdfSamples cfgNarrow 2 = [0, 0] := by
    have hstep : pdfSamples cfgNarrow 2 =
        [calculatePDF cfgNarrow.type (((0 : ℕ) : ℝ) / (((2 : ℕ) : ℝ) - 1))
          ((cfgNarrow.center : ℚ) : ℝ) ((cfgNarrow.spread : ℚ) : ℝ) cfgNarrow.degreesOfFreedom,
         calculatePDF cfgNarrow.type (((1 : ℕ) : ℝ) / (((2 : ℕ) : ℝ) - 1))
          ((cfgNarrow.center : ℚ) : ℝ) ((cfgNarrow.spread : ℚ) : ℝ) cfgNarrow.degreesOfFreedom] := rfl
    rw [hstep, show cfgNarrow.type = DistributionType.uniform from rfl]
    simp only [calculatePDF]
    rw [show ((0 : ℕ) : ℝ) / (((2 : ℕ) : ℝ) - 1) = 0 by norm_num,
      show ((1 : ℕ) : ℝ) / (((2 : ℕ) : ℝ) - 1) = 1 by norm_num, e0, e1]
  have hcurve : generatePDFCurve cfgNarrow 2 = [0, 0] := by
    simp only [generatePDFCurve, hdata, List.map_cons, List.map_nil, zero_div]
  refine ⟨hcurve, ?_⟩
  rw [hcurve]
  intro hmem
  rcases List.mem_cons.mp hmem with h | h
  · norm_num at h
  · rcases List.mem_cons.mp h with h2 | h2
    · norm_num at h2
    · cases h2

/-- Claim C8 witness: the full-width uniform configuration attains maximum 1
on a 2-point curve. -/
theorem c8_witness : (1 : ℝ) ∈ generatePDFCurve cfgFull 2 := by
  have e0 : calculatePDF cfgFull.type (((0 : ℕ) : ℝ) / (((2 : ℕ) : ℝ) - 1))
      ((cfgFull.center : ℚ) : ℝ) ((cfgFull.spread : ℚ) : ℝ) cfgFull.degreesOfFreedom = 1 := by
    rw [show cfgFull.type = DistributionType.uniform from rfl]
    simp only [calculatePDF, calculateUniformPDF]
    rw [if_pos]
    constructor
    · rw [show ((0 : ℕ) : ℝ) / (((2 : ℕ) : ℝ) - 1) = 0 by norm_num]
      rw [show cfgFull.center = (1 / 2 : ℚ) from rfl, show cfgFull.spread = (1 : ℚ) from rfl]
      push_cast
      norm_num
    · rw [show ((0 : ℕ) : ℝ) / (((2 : ℕ) : ℝ) - 1) = 0 by norm_num]
      rw [show cfgFull.center = (1 / 2 : ℚ) from rfl, show cfgFull.spread = (1 : ℚ) from rfl]
      push_cast
      norm_num
  refine (c8_amended cfgFull 2 (by norm_num)).2 ⟨1, ?_, by norm_num⟩
  have hstep : pdfSamples cfgFull 2 =
      [calculatePDF cfgFull.type (((0 : ℕ) : ℝ) / (((2 : ℕ) : ℝ) - 1))
        ((cfgFull.center : ℚ) : ℝ) ((cfgFull.spread : ℚ) : ℝ) cfgFull.degreesOfFreedom,
       calculatePDF cfgFull.type (((1 : ℕ) : ℝ) / (((2 : ℕ) : ℝ) - 1))
        ((cfgFull.center : ℚ) : ℝ) ((cfgFull.spread : ℚ) : ℝ) cfgFull.degreesOfFreedom] := rfl
  rw [hstep, e0]
  exact List.mem_cons_self 1 _

end TheMethod
